import Mathlib

/-!
Shallow embedding of the HR dashboard chart endpoint
(`src/app/api/hr/dashboard/charts/route.ts`) together with theorems that
check the specification's claims about it.

JavaScript `Date` values are abstracted as `Timestamp` records carrying the
calendar year and month that the month-key derivation reads, plus a
sub-month component `sub` (day and time of day) that participates only in
ordering; the spec pins the endpoint to one uniformly applied calendar
interpretation, which this abstraction realises.  JavaScript objects used
as dictionaries (`monthCounts`, `jobCounts`) are modelled as
insertion-ordered association lists, which is their enumeration order for
the non-index-like keys (month keys, uuid job ids) this endpoint uses.
`Array.prototype.sort` is modelled as a stable comparator sort, which the
ECMAScript standard guarantees.
-/

namespace JobSync

open List

/-- Calendar timestamp: year, month (1..12) and a sub-month ordering
component (day, time of day). -/
structure Timestamp where
  year : Nat
  month : Nat
  sub : Nat
deriving DecidableEq

/-- A row of the `jobs` table: `id`, `title`, `created_by`. -/
structure Job where
  id : String
  title : String
  created_by : String
deriving DecidableEq

/-- A row of the `applications` table: nullable `job_id` foreign key and
`created_at`. -/
structure Application where
  job_id : Option String
  created_at : Timestamp
deriving DecidableEq

/-- A supabase error object (`message`, `details`, `hint`, `code`); the
empty string stands for an absent or empty (JS-falsy) field. -/
structure StoreErr where
  message : String
  details : String
  hint : String
  code : String
deriving DecidableEq

/-- The backing data store, with injectable per-table failures standing for
the `error` half of each supabase reply. -/
structure Store where
  profiles : List (String × String)
  profileFail : Option StoreErr
  jobs : List Job
  jobsFail : Option StoreErr
  applications : List Application
  appsFail : Option StoreErr
deriving DecidableEq

/-- Monthly aggregate row `{month, count}`. -/
structure MonthAgg where
  month : String
  count : Nat
deriving DecidableEq

/-- By-job aggregate row `{job_id, job_title, count}`. -/
structure JobAgg where
  job_id : String
  job_title : String
  count : Nat
deriving DecidableEq

/-- JSON rows carried by a success envelope. -/
inductive Row where
  | monthRow (month : String) (count : Nat)
  | jobRow (job_id : String) (job_title : String) (count : Nat)
deriving DecidableEq

def MonthAgg.toRow (m : MonthAgg) : Row := Row.monthRow m.month m.count

def JobAgg.toRow (g : JobAgg) : Row := Row.jobRow g.job_id g.job_title g.count

/-- The aggregation key of a JSON row (`month` for monthly rows, `job_id`
for by-job rows). -/
def rowKey : Row → String ⊕ String
  | Row.monthRow m _ => Sum.inl m
  | Row.jobRow j _ _ => Sum.inr j

/-- The `count` field of a JSON row. -/
def rowCount : Row → Nat
  | Row.monthRow _ c => c
  | Row.jobRow _ _ c => c

/-- The JSON response envelope together with its HTTP status. -/
structure Response where
  status : Nat
  success : Bool
  error : Option String
  code : Option String
  data : Option (List Row)
deriving DecidableEq

/-- Which store tables a request run has queried. -/
inductive Query where
  | profileQ
  | jobsQ
  | appsQ
deriving DecidableEq

/-- JavaScript `a || b` on strings (the empty string is falsy). -/
def jsOr (a b : String) : String := if a = "" then b else a

/-- `String(n).padStart(2, '0')`. -/
def pad2 (n : Nat) : String := if n < 10 then "0" ++ toString n else toString n

/-- The month key `${date.getFullYear()}-${String(date.getMonth()+1).padStart(2,'0')}`. -/
def monthKey (t : Timestamp) : String := toString t.year ++ "-" ++ pad2 t.month

/-- Month key of an application's `created_at`. -/
def monthKeyOf (a : Application) : String := monthKey a.created_at

/-- Insert `x` into `l` before the first element `y` such that
`before x y`; the insertion step of a stable comparator sort. -/
def insertBy (before : α → α → Bool) (x : α) : List α → List α
  | [] => [x]
  | y :: ys => if before x y then x :: y :: ys else y :: insertBy before x ys

/-- Stable comparator sort (the guarantee `Array.prototype.sort` gives):
elements are inserted left to right, each landing after existing
equivalents. -/
def jsSort (before : α → α → Bool) (l : List α) : List α :=
  l.foldl (fun acc x => insertBy before x acc) []

/-- Strict ordering of timestamps (year, month, sub-month, lexicographic). -/
def tsLt (a b : Timestamp) : Bool :=
  decide (a.year < b.year ∨ (a.year = b.year ∧ (a.month < b.month ∨
    (a.month = b.month ∧ a.sub < b.sub))))

/-- The `.in('job_id', jobIds)` filter: SQL `job_id IN (...)`; a null
`job_id` never matches. -/
def scopeFilter (jobIds : List String) (a : Application) : Bool :=
  match a.job_id with
  | some j => jobIds.contains j
  | none => false

/-- Rows returned by the applications query, filtered by
`if (!isAdmin && jobIds.length > 0) query.in('job_id', jobIds)`. -/
def fetchAppsScoped (s : Store) (isAdmin : Bool) (jobIds : List String) :
    List Application :=
  if isAdmin = false ∧ jobIds ≠ [] then s.applications.filter (scopeFilter jobIds)
  else s.applications

/-- The monthly query additionally orders by `created_at` descending. -/
def fetchAppsMonthly (s : Store) (isAdmin : Bool) (jobIds : List String) :
    List Application :=
  jsSort (fun a b => tsLt b.created_at a.created_at) (fetchAppsScoped s isAdmin jobIds)

/-- `monthCounts[monthKey] = (monthCounts[monthKey] || 0) + 1` on an
insertion-ordered record. -/
def bumpMonth (acc : List (String × Nat)) (k : String) : List (String × Nat) :=
  if acc.any (fun p => p.1 == k) then
    acc.map (fun p => if p.1 == k then (p.1, p.2 + 1) else p)
  else acc ++ [(k, 1)]

/-- The `monthCounts` record after the `forEach` loop, as an
insertion-ordered association list. -/
def monthEntries (apps : List Application) : List (String × Nat) :=
  apps.foldl (fun acc a => bumpMonth acc (monthKeyOf a)) []

/-- The comparator `(a, b) => a.month.localeCompare(b.month)` says "a
strictly precedes b": lexicographic comparison of the month keys (stated on
the character lists, which is the same order as `String` `<`). -/
def monthBefore (a b : MonthAgg) : Bool := decide (a.month.toList < b.month.toList)

/-- `Object.entries(monthCounts).map(([month,count]) => ({month,count}))
.sort((a,b) => a.month.localeCompare(b.month)).slice(-12)`. -/
def monthlyData (apps : List Application) : List MonthAgg :=
  let rows := (monthEntries apps).map (fun p => MonthAgg.mk p.1 p.2)
  let sorted := jsSort monthBefore rows
  sorted.drop (sorted.length - 12)

/-- `app.job_id || 'unknown'`. -/
def groupKey (a : Application) : String :=
  match a.job_id with
  | some j => jsOr j "unknown"
  | none => "unknown"

/-- `app.jobs?.title || 'Unknown Job'`: the embedded `jobs:job_id (title)`
join resolves the application's `job_id` against the jobs table. -/
def titleOf (jobs : List Job) (a : Application) : String :=
  jsOr ((a.job_id.bind (fun j => (jobs.find? (fun jb => jb.id == j)).map Job.title)).getD "")
    "Unknown Job"

/-- One step of the `jobCounts` accumulation: create the group with the
first-encountered row's key and title, then increment its count. -/
def bumpJob (jobs : List Job) (acc : List JobAgg) (a : Application) : List JobAgg :=
  let jobId := groupKey a
  let jobTitle := titleOf jobs a
  if acc.any (fun g => g.job_id == jobId) then
    acc.map (fun g => if g.job_id == jobId then { g with count := g.count + 1 } else g)
  else acc ++ [⟨jobId, jobTitle, 1⟩]

/-- The `jobCounts` record after the `forEach` loop (insertion order =
first-encounter order of group keys). -/
def jobGroups (jobs : List Job) (apps : List Application) : List JobAgg :=
  apps.foldl (bumpJob jobs) []

/-- The by-job comparator `(a, b) => b.count - a.count` as a strict "comes
before" relation: `a` strictly precedes `b` when its count is larger. -/
def countBefore (a b : JobAgg) : Bool := decide (b.count < a.count)

/-- `Object.values(jobCounts).sort((a,b) => b.count - a.count).slice(0, 10)`. -/
def jobData (jobs : List Job) (apps : List Application) : List JobAgg :=
  (jsSort countBefore (jobGroups jobs apps)).take 10

/-- `profiles.select('role').eq('id', uid).single()`: `none` when the call
fails or does not return exactly one row (each of which produces the 404
reply in the handler). -/
def fetchProfileRole (s : Store) (uid : String) : Option String :=
  if s.profileFail.isSome then none
  else
    match s.profiles.filter (fun p => p.1 == uid) with
    | [p] => some p.2
    | _ => none

/-- `jobs.select('id').eq('created_by', user.id)` rows. -/
def callerJobs (s : Store) (uid : String) : List Job :=
  s.jobs.filter (fun j => j.created_by == uid)

/-- `jobIds = jobs.map(job => job.id)`. -/
def callerJobIds (s : Store) (uid : String) : List String :=
  (callerJobs s uid).map Job.id

/-- 401 reply. -/
def resp401 : Response := ⟨401, false, some "Unauthorized", none, none⟩

/-- 404 reply. -/
def resp404 : Response := ⟨404, false, some "Profile not found", none, none⟩

/-- 403 reply. -/
def resp403 : Response :=
  ⟨403, false, some "Forbidden: HR or ADMIN role required", none, none⟩

/-- 400 reply for a missing (or JS-falsy) `type` parameter. -/
def resp400missing : Response :=
  ⟨400, false, some "Missing required parameter: type", none, none⟩

/-- 400 reply of the `switch` default branch. -/
def resp400invalid (t : String) : Response :=
  ⟨400, false, some ("Invalid chart type: " ++ t ++ ". Supported types: monthly, by-job"),
    none, none⟩

/-- 500 reply built from a store error:
`error.message || error.details || <fallback>` and
`error.code || 'UNKNOWN_ERROR'`. -/
def resp500 (e : StoreErr) (fallback : String) : Response :=
  ⟨500, false, some (jsOr e.message (jsOr e.details fallback)),
    some (jsOr e.code "UNKNOWN_ERROR"), none⟩

/-- 200 success reply. -/
def respOk (rows : List Row) : Response := ⟨200, true, none, none, some rows⟩

/-- The `switch (chartType)` statement, shared by the ADMIN (unrestricted)
and HR (restricted) scopes. -/
def runChart (s : Store) (isAdmin : Bool) (jobIds : List String)
    (chartType : String) (q : List Query) : Response × List Query :=
  match chartType with
  | "monthly" =>
    (match s.appsFail with
     | some e => (resp500 e "Failed to fetch applications", q ++ [Query.appsQ])
     | none =>
       (respOk ((monthlyData (fetchAppsMonthly s isAdmin jobIds)).map MonthAgg.toRow),
        q ++ [Query.appsQ]))
  | "by-job" =>
    (match s.appsFail with
     | some e => (resp500 e "Failed to fetch job data", q ++ [Query.appsQ])
     | none =>
       (respOk ((jobData s.jobs (fetchAppsScoped s isAdmin jobIds)).map JobAgg.toRow),
        q ++ [Query.appsQ]))
  | _ => (resp400invalid chartType, q)

/-- The `GET` handler, returning the response and the trace of store
queries that the run issued. -/
def handle (auth : Option String) (typeParam : Option String) (s : Store) :
    Response × List Query :=
  match auth with
  | none => (resp401, [])
  | some uid =>
    match fetchProfileRole s uid with
    | none => (resp404, [Query.profileQ])
    | some role =>
      if role ≠ "HR" ∧ role ≠ "ADMIN" then (resp403, [Query.profileQ])
      else
        match typeParam with
        | none => (resp400missing, [Query.profileQ])
        | some chartType =>
          if chartType = "" then (resp400missing, [Query.profileQ])
          else if role = "ADMIN" then runChart s true [] chartType [Query.profileQ]
          else
            match s.jobsFail with
            | some e =>
              (resp500 e "Failed to fetch jobs", [Query.profileQ, Query.jobsQ])
            | none =>
              if callerJobIds s uid = [] then
                (respOk [], [Query.profileQ, Query.jobsQ])
              else
                runChart s false (callerJobIds s uid) chartType
                  [Query.profileQ, Query.jobsQ]

/-- The response the caller sees. -/
def GET (auth : Option String) (typeParam : Option String) (s : Store) : Response :=
  (handle auth typeParam s).1

/-! ### Generic facts about the stable comparator sort -/

/-- Sortedness with respect to a strict "comes before" comparator: no later
element strictly precedes an earlier one. -/
def SortedBy (before : α → α → Bool) (l : List α) : Prop :=
  l.Pairwise (fun a b => before b a = false)

theorem mem_insertBy (before : α → α → Bool) (x : α) (l : List α) (a : α) :
    a ∈ insertBy before x l ↔ a = x ∨ a ∈ l := by
  induction l with
  | nil => simp [insertBy]
  | cons y ys ih =>
    simp only [insertBy]
    split
    · simp only [List.mem_cons]
    · simp only [List.mem_cons, ih]
      tauto

theorem insertBy_perm (before : α → α → Bool) (x : α) (l : List α) :
    insertBy before x l ~ x :: l := by
  induction l with
  | nil => exact List.Perm.refl _
  | cons y ys ih =>
    simp only [insertBy]
    split
    · exact List.Perm.refl _
    · exact (ih.cons y).trans (List.Perm.swap x y ys)

theorem jsSort_perm_aux (before : α → α → Bool) :
    ∀ (l acc : List α),
      l.foldl (fun acc x => insertBy before x acc) acc ~ acc ++ l := by
  intro l
  induction l with
  | nil => intro acc; simp
  | cons x xs ih =>
    intro acc
    simp only [List.foldl_cons]
    refine (ih (insertBy before x acc)).trans ?_
    refine (List.Perm.append_right xs (insertBy_perm before x acc)).trans ?_
    exact List.perm_middle.symm

theorem jsSort_perm (before : α → α → Bool) (l : List α) : jsSort before l ~ l := by
  simpa using jsSort_perm_aux before l []

theorem insertBy_sorted (before : α → α → Bool)
    (hasym : ∀ a b, before a b = true → before b a = false)
    (htrans : ∀ a b c, before a b = true → before b c = true → before a c = true)
    (x : α) {l : List α} (hl : SortedBy before l) :
    SortedBy before (insertBy before x l) := by
  induction l with
  | nil => simp [insertBy, SortedBy]
  | cons y ys ih =>
    obtain ⟨hy, hys⟩ := List.pairwise_cons.mp hl
    simp only [insertBy]
    split
    · rename_i hxy
      refine List.Pairwise.cons ?_ hl
      intro w hw
      rcases List.mem_cons.mp hw with rfl | hwys
      · exact hasym x w hxy
      · cases hwx : before w x with
        | false => rfl
        | true => exact absurd (htrans w x y hwx hxy) (by simp [hy w hwys])
    · rename_i hxy
      refine List.Pairwise.cons ?_ (ih hys)
      intro w hw
      rcases (mem_insertBy before x ys w).mp hw with rfl | hwys
      · simpa using hxy
      · exact hy w hwys

theorem jsSort_sorted_aux (before : α → α → Bool)
    (hasym : ∀ a b, before a b = true → before b a = false)
    (htrans : ∀ a b c, before a b = true → before b c = true → before a c = true) :
    ∀ (l acc : List α), SortedBy before acc →
      SortedBy before (l.foldl (fun acc x => insertBy before x acc) acc) := by
  intro l
  induction l with
  | nil => intro acc h; simpa using h
  | cons x xs ih =>
    intro acc h
    simp only [List.foldl_cons]
    exact ih _ (insertBy_sorted before hasym htrans x h)

theorem jsSort_sorted (before : α → α → Bool)
    (hasym : ∀ a b, before a b = true → before b a = false)
    (htrans : ∀ a b c, before a b = true → before b c = true → before a c = true)
    (l : List α) : SortedBy before (jsSort before l) :=
  jsSort_sorted_aux before hasym htrans l [] (List.Pairwise.nil)

/-! ### The two comparators used by the endpoint -/

theorem countBefore_asym (a b : JobAgg) (h : countBefore a b = true) :
    countBefore b a = false := by
  simp only [countBefore, decide_eq_true_eq] at h
  simp only [countBefore, decide_eq_false_iff_not]
  omega

theorem countBefore_trans (a b c : JobAgg) (hab : countBefore a b = true)
    (hbc : countBefore b c = true) : countBefore a c = true := by
  simp only [countBefore, decide_eq_true_eq] at hab hbc ⊢
  omega

theorem monthBefore_iff (a b : MonthAgg) : monthBefore a b = true ↔ a.month < b.month := by
  simp only [monthBefore, decide_eq_true_eq]
  exact String.lt_iff_toList_lt.symm

theorem monthBefore_asym (a b : MonthAgg) (h : monthBefore a b = true) :
    monthBefore b a = false := by
  have h2 : a.month < b.month := (monthBefore_iff a b).mp h
  cases hc : monthBefore b a with
  | false => rfl
  | true => exact absurd ((monthBefore_iff b a).mp hc) (lt_asymm h2)

theorem monthBefore_trans (a b c : MonthAgg) (hab : monthBefore a b = true)
    (hbc : monthBefore b c = true) : monthBefore a c = true :=
  (monthBefore_iff a c).mpr (lt_trans ((monthBefore_iff a b).mp hab) ((monthBefore_iff b c).mp hbc))

/-! ### Stability of the by-job sort: elements of one count value keep their
relative (first-encounter) order -/

theorem insertBy_filter_count (c : Nat) (x : JobAgg) {l : List JobAgg}
    (hl : SortedBy countBefore l) :
    (insertBy countBefore x l).filter (fun g => g.count == c) =
      if x.count = c then (l.filter (fun g => g.count == c)) ++ [x]
      else l.filter (fun g => g.count == c) := by
  induction l with
  | nil =>
    by_cases hx : x.count = c <;> simp [insertBy, hx]
  | cons y ys ih =>
    obtain ⟨hy, hys⟩ := List.pairwise_cons.mp hl
    simp only [insertBy]
    split
    · rename_i hxy
      have hlt : y.count < x.count := by simpa [countBefore] using hxy
      by_cases hx : x.count = c
      · have hnil : (y :: ys).filter (fun g => g.count == c) = [] := by
          rw [List.filter_eq_nil_iff]
          intro g hg
          have hle : g.count ≤ y.count := by
            rcases List.mem_cons.mp hg with rfl | hgys
            · exact le_refl _
            · have hgy := hy g hgys
              simp only [countBefore, decide_eq_false_iff_not] at hgy
              omega
          simp only [beq_iff_eq]
          omega
        rw [if_pos hx]
        rw [hnil]
        simp [List.filter_cons, hx, hnil]
      · rw [if_neg hx]
        simp [List.filter_cons, hx]
    · rename_i hxy
      by_cases hx : x.count = c <;> by_cases hyc : y.count = c <;>
        simp [List.filter_cons, hx, hyc, ih hys]

theorem jsSort_filter_count_aux (c : Nat) :
    ∀ (l acc : List JobAgg), SortedBy countBefore acc →
      ((l.foldl (fun acc x => insertBy countBefore x acc) acc).filter
          (fun g => g.count == c)) =
        acc.filter (fun g => g.count == c) ++ l.filter (fun g => g.count == c) := by
  intro l
  induction l with
  | nil => intro acc h; simp
  | cons x xs ih =>
    intro acc h
    simp only [List.foldl_cons]
    rw [ih _ (insertBy_sorted countBefore countBefore_asym countBefore_trans x h)]
    rw [insertBy_filter_count c x h]
    by_cases hx : x.count = c <;> simp [List.filter_cons, hx]

theorem jsSort_filter_count (c : Nat) (l : List JobAgg) :
    (jsSort countBefore l).filter (fun g => g.count == c) =
      l.filter (fun g => g.count == c) := by
  simpa using jsSort_filter_count_aux c l [] List.Pairwise.nil

/-! ### Invariants of the `monthCounts` accumulation -/

/-- Invariant of the `monthCounts` accumulation over the processed month
keys `ks`: entry keys are distinct, each entry counts the occurrences of
its key among `ks`, and the entry keys are exactly the keys occurring in
`ks`. -/
def MInv (ks : List String) (acc : List (String × Nat)) : Prop :=
  (acc.map Prod.fst).Nodup ∧ (∀ p ∈ acc, p.2 = ks.count p.1) ∧
    ∀ k, k ∈ ks ↔ k ∈ acc.map Prod.fst

theorem any_key_iff (acc : List (String × Nat)) (k : String) :
    (acc.any fun p => p.1 == k) = true ↔ k ∈ acc.map Prod.fst := by
  simp only [List.any_eq_true, List.mem_map, beq_iff_eq]

theorem bumpMonth_inv {ks : List String} {acc : List (String × Nat)} (k : String)
    (h : MInv ks acc) : MInv (ks ++ [k]) (bumpMonth acc k) := by
  obtain ⟨hnd, hcnt, hmem⟩ := h
  by_cases hk : k ∈ acc.map Prod.fst
  · have hany : (acc.any fun p => p.1 == k) = true := (any_key_iff acc k).mpr hk
    have hkeys :
        ((acc.map fun p => if p.1 == k then (p.1, p.2 + 1) else p).map Prod.fst) =
          acc.map Prod.fst := by
      rw [List.map_map]
      apply List.map_congr_left
      intro p _
      simp only [Function.comp_apply]
      split <;> rfl
    simp only [bumpMonth, hany, if_true]
    refine ⟨by rw [hkeys]; exact hnd, ?_, ?_⟩
    · intro q hq
      obtain ⟨p, hp, rfl⟩ := List.mem_map.mp hq
      by_cases hpk : p.1 = k
      · simp only [hpk, beq_self_eq_true, if_true]
        rw [List.count_append]
        have hc := hcnt p hp
        rw [hpk] at hc
        have h1 : List.count k [k] = 1 := by simp
        omega
      · have hpk2 : (p.1 == k) = false := by simpa using hpk
        simp only [hpk2, Bool.false_eq_true, if_false]
        rw [List.count_append, ← hcnt p hp]
        simp [hpk]
    · intro q
      rw [hkeys, List.mem_append]
      constructor
      · rintro (hq | hq)
        · exact (hmem q).mp hq
        · rw [List.mem_singleton.mp hq]; exact hk
      · intro hq; exact Or.inl ((hmem q).mpr hq)
  · have hany : (acc.any fun p => p.1 == k) = false := by
      cases hb : (acc.any fun p => p.1 == k) with
      | false => rfl
      | true => exact absurd ((any_key_iff acc k).mp hb) hk
    simp only [bumpMonth, hany, Bool.false_eq_true, if_false]
    have hknotks : k ∉ ks := fun hin => hk ((hmem k).mp hin)
    refine ⟨?_, ?_, ?_⟩
    · rw [List.map_append]
      simp only [List.map_cons, List.map_nil]
      rw [List.nodup_append]
      refine ⟨hnd, List.nodup_singleton k, ?_⟩
      intro x hx hxk
      have hxe : x = k := by simpa using hxk
      exact hk (hxe ▸ hx)
    · intro q hq
      rcases List.mem_append.mp hq with hq | hq
      · have hq1 : q.1 ≠ k := fun he => hk (he ▸ List.mem_map_of_mem Prod.fst hq)
        rw [List.count_append, ← hcnt q hq]
        simp [hq1]
      · rw [List.mem_singleton.mp hq]
        simp [List.count_append, List.count_eq_zero.mpr hknotks]
    · intro q
      simp only [List.map_append, List.mem_append, List.map_cons, List.map_nil,
        List.mem_singleton, hmem q]

theorem monthEntries_inv_aux :
    ∀ (l : List Application) (ks : List String) (acc : List (String × Nat)),
      MInv ks acc →
      MInv (ks ++ l.map monthKeyOf)
        (l.foldl (fun acc a => bumpMonth acc (monthKeyOf a)) acc) := by
  intro l
  induction l with
  | nil => intro ks acc h; simpa using h
  | cons a as ih =>
    intro ks acc h
    simp only [List.foldl_cons, List.map_cons]
    have h2 := ih (ks ++ [monthKeyOf a]) _ (bumpMonth_inv (monthKeyOf a) h)
    simpa [List.append_assoc] using h2

theorem monthEntries_inv (apps : List Application) :
    MInv (apps.map monthKeyOf) (monthEntries apps) := by
  have h0 : MInv [] ([] : List (String × Nat)) := ⟨List.nodup_nil, by simp, by simp⟩
  simpa [monthEntries] using monthEntries_inv_aux apps [] [] h0

/-! ### Invariants of the `jobCounts` accumulation -/

/-- Invariant of the `jobCounts` accumulation over the processed
applications `pref`: group keys are distinct, each group counts the
occurrences of its key, each group's key and title come from the first
processed row of that group, and every processed row has a group. -/
def JInv (jobs : List Job) (pref : List Application) (acc : List JobAgg) : Prop :=
  (acc.map JobAgg.job_id).Nodup ∧
    (∀ g ∈ acc, g.count = (pref.map groupKey).count g.job_id) ∧
    (∀ g ∈ acc, ∃ pre a post, pref = pre ++ a :: post ∧
      (∀ b ∈ pre, groupKey b ≠ g.job_id) ∧ groupKey a = g.job_id ∧
      titleOf jobs a = g.job_title) ∧
    ∀ b ∈ pref, ∃ g ∈ acc, g.job_id = groupKey b

theorem any_group_iff (acc : List JobAgg) (k : String) :
    (acc.any fun g => g.job_id == k) = true ↔ k ∈ acc.map JobAgg.job_id := by
  simp only [List.any_eq_true, List.mem_map, beq_iff_eq]

theorem bumpJob_inv {jobs : List Job} {pref : List Application} {acc : List JobAgg}
    (a : Application) (h : JInv jobs pref acc) :
    JInv jobs (pref ++ [a]) (bumpJob jobs acc a) := by
  obtain ⟨hnd, hcnt, hwit, hcov⟩ := h
  by_cases hk : groupKey a ∈ acc.map JobAgg.job_id
  · have hany : (acc.any fun g => g.job_id == groupKey a) = true :=
      (any_group_iff acc _).mpr hk
    have hkeys :
        ((acc.map fun g =>
            if g.job_id == groupKey a then { g with count := g.count + 1 } else g).map
          JobAgg.job_id) = acc.map JobAgg.job_id := by
      rw [List.map_map]
      apply List.map_congr_left
      intro g _
      simp only [Function.comp_apply]
      split <;> rfl
    simp only [bumpJob, hany, if_true]
    refine ⟨by rw [hkeys]; exact hnd, ?_, ?_, ?_⟩
    · intro q hq
      obtain ⟨g, hg, rfl⟩ := List.mem_map.mp hq
      by_cases hgk : g.job_id = groupKey a
      · have hgk2 : (g.job_id == groupKey a) = true := by simpa using hgk
        simp only [hgk2, if_true]
        show g.count + 1 = ((pref ++ [a]).map groupKey).count g.job_id
        rw [List.map_append, List.count_append, hgk]
        have hc := hcnt g hg
        rw [hgk] at hc
        have h1 : List.count (groupKey a) ([a].map groupKey) = 1 := by simp
        omega
      · have hgk2 : (g.job_id == groupKey a) = false := by simpa using hgk
        simp only [hgk2, Bool.false_eq_true, if_false]
        rw [List.map_append, List.count_append]
        have h0 : List.count g.job_id ([a].map groupKey) = 0 := by
          rw [List.count_eq_zero]
          simp [hgk]
        have hc := hcnt g hg
        omega
    · intro q hq
      obtain ⟨g, hg, rfl⟩ := List.mem_map.mp hq
      obtain ⟨pre, b, post, hsplit, hpre, hkey, htitle⟩ := hwit g hg
      have hext : pref ++ [a] = pre ++ b :: (post ++ [a]) := by
        rw [hsplit]
        simp
      by_cases hgk : g.job_id = groupKey a
      · have hgk2 : (g.job_id == groupKey a) = true := by simpa using hgk
        simp only [hgk2, if_true]
        exact ⟨pre, b, post ++ [a], hext, hpre, hkey, htitle⟩
      · have hgk2 : (g.job_id == groupKey a) = false := by simpa using hgk
        simp only [hgk2, Bool.false_eq_true, if_false]
        exact ⟨pre, b, post ++ [a], hext, hpre, hkey, htitle⟩
    · intro b hb
      rcases List.mem_append.mp hb with hb | hb
      · obtain ⟨g, hg, hgid⟩ := hcov b hb
        refine ⟨if g.job_id == groupKey a then { g with count := g.count + 1 } else g,
          List.mem_map_of_mem _ hg, ?_⟩
        split <;> simpa using hgid
      · have hba : b = a := by simpa using hb
        subst hba
        obtain ⟨g, hg, hgid⟩ := List.mem_map.mp hk
        refine ⟨if g.job_id == groupKey b then { g with count := g.count + 1 } else g,
          List.mem_map_of_mem _ hg, ?_⟩
        split <;> simpa using hgid
  · have hany : (acc.any fun g => g.job_id == groupKey a) = false := by
      cases hb : (acc.any fun g => g.job_id == groupKey a) with
      | false => rfl
      | true => exact absurd ((any_group_iff acc _).mp hb) hk
    simp only [bumpJob, hany, Bool.false_eq_true, if_false]
    have hfresh : ∀ b ∈ pref, groupKey b ≠ groupKey a := by
      intro b hb he
      obtain ⟨g, hg, hgid⟩ := hcov b hb
      have hmm : g.job_id ∈ acc.map JobAgg.job_id := List.mem_map_of_mem JobAgg.job_id hg
      rw [hgid, he] at hmm
      exact hk hmm
    have hnotin : groupKey a ∉ pref.map groupKey := by
      intro hin
      obtain ⟨b, hb, hbe⟩ := List.mem_map.mp hin
      exact hfresh b hb hbe
    refine ⟨?_, ?_, ?_, ?_⟩
    · rw [List.map_append]
      simp only [List.map_cons, List.map_nil]
      rw [List.nodup_append]
      refine ⟨hnd, List.nodup_singleton _, ?_⟩
      intro x hx hxk
      have hxe : x = groupKey a := by simpa using hxk
      exact hk (hxe ▸ hx)
    · intro q hq
      rcases List.mem_append.mp hq with hq | hq
      · have hq1 : q.job_id ≠ groupKey a :=
          fun he => hk (he ▸ List.mem_map_of_mem JobAgg.job_id hq)
        rw [List.map_append, List.count_append]
        have h0 : List.count q.job_id ([a].map groupKey) = 0 := by
          rw [List.count_eq_zero]
          simp [hq1]
        have hc := hcnt q hq
        omega
      · have hqe : q = ⟨groupKey a, titleOf jobs a, 1⟩ := by simpa using hq
        subst hqe
        show (1 : Nat) = ((pref ++ [a]).map groupKey).count (groupKey a)
        rw [List.map_append, List.count_append]
        have h0 : List.count (groupKey a) (pref.map groupKey) = 0 :=
          List.count_eq_zero.mpr hnotin
        have h1 : List.count (groupKey a) ([a].map groupKey) = 1 := by simp
        omega
    · intro q hq
      rcases List.mem_append.mp hq with hq | hq
      · obtain ⟨pre, b, post, hsplit, hpre, hkey, htitle⟩ := hwit q hq
        refine ⟨pre, b, post ++ [a], ?_, hpre, hkey, htitle⟩
        rw [hsplit]
        simp
      · have hqe : q = ⟨groupKey a, titleOf jobs a, 1⟩ := by simpa using hq
        subst hqe
        exact ⟨pref, a, [], rfl, hfresh, rfl, rfl⟩
    · intro b hb
      rcases List.mem_append.mp hb with hb | hb
      · obtain ⟨g, hg, hgid⟩ := hcov b hb
        exact ⟨g, List.mem_append_left _ hg, hgid⟩
      · have hba : b = a := by simpa using hb
        subst hba
        exact ⟨⟨groupKey b, titleOf jobs b, 1⟩, List.mem_append_right _ (by simp), rfl⟩

theorem jobGroups_inv_aux (jobs : List Job) :
    ∀ (l pref : List Application) (acc : List JobAgg),
      JInv jobs pref acc → JInv jobs (pref ++ l) (l.foldl (bumpJob jobs) acc) := by
  intro l
  induction l with
  | nil => intro pref acc h; simpa using h
  | cons a as ih =>
    intro pref acc h
    simp only [List.foldl_cons]
    have h2 := ih (pref ++ [a]) _ (bumpJob_inv a h)
    simpa [List.append_assoc] using h2

theorem jobGroups_inv (jobs : List Job) (apps : List Application) :
    JInv jobs apps (jobGroups jobs apps) := by
  have h0 : JInv jobs [] ([] : List JobAgg) := ⟨List.nodup_nil, by simp, by simp, by simp⟩
  simpa [jobGroups] using jobGroups_inv_aux jobs apps [] [] h0

/-! ### Job lookup under unique ids -/

theorem find_job_of_nodup {l : List Job} {jb : Job} (hmem : jb ∈ l)
    (hnd : (l.map Job.id).Nodup) : l.find? (fun x => x.id == jb.id) = some jb := by
  induction l with
  | nil => cases hmem
  | cons h t ih =>
    rw [List.map_cons] at hnd
    obtain ⟨hh, ht⟩ := List.nodup_cons.mp hnd
    rcases List.mem_cons.mp hmem with rfl | hmt
    · rw [List.find?_cons_of_pos _ (by simp)]
    · have hne : h.id ≠ jb.id := by
        intro he
        exact hh (he ▸ List.mem_map_of_mem Job.id hmt)
      rw [List.find?_cons_of_neg _ (by simpa using hne)]
      exact ih hmt ht

/-- For an application inside the caller's scope, the title join resolves
identically in two stores that agree on the caller's jobs and whose job ids
are unique. -/
theorem titleOf_eq_of_callerJobs {s1 s2 : Store} {uid : String}
    (hjobs : callerJobs s1 uid = callerJobs s2 uid)
    (hnd1 : (s1.jobs.map Job.id).Nodup) (hnd2 : (s2.jobs.map Job.id).Nodup)
    {a : Application} (ha : scopeFilter (callerJobIds s1 uid) a = true) :
    titleOf s1.jobs a = titleOf s2.jobs a := by
  match hji : a.job_id with
  | none => simp [scopeFilter, hji] at ha
  | some j =>
    rw [scopeFilter] at ha
    simp only [hji] at ha
    have hj : j ∈ callerJobIds s1 uid := by simpa using ha
    obtain ⟨jb, hjb, hjbid⟩ := List.mem_map.mp hj
    have hjb1 : jb ∈ s1.jobs := List.mem_of_mem_filter hjb
    have hjb2 : jb ∈ s2.jobs := List.mem_of_mem_filter (hjobs ▸ hjb)
    have hf1 : s1.jobs.find? (fun x => x.id == jb.id) = some jb := find_job_of_nodup hjb1 hnd1
    have hf2 : s2.jobs.find? (fun x => x.id == jb.id) = some jb := find_job_of_nodup hjb2 hnd2
    rw [titleOf, titleOf, hji, ← hjbid]
    simp only [Option.some_bind]
    rw [hf1, hf2]

/-- The `jobCounts` fold only consults the jobs table through `titleOf` at
the processed rows. -/
theorem jobGroups_fold_congr {J1 J2 : List Job} :
    ∀ (apps : List Application) (acc : List JobAgg),
      (∀ a ∈ apps, titleOf J1 a = titleOf J2 a) →
      apps.foldl (bumpJob J1) acc = apps.foldl (bumpJob J2) acc := by
  intro apps
  induction apps with
  | nil => intro acc _; rfl
  | cons a as ih =>
    intro acc h
    simp only [List.foldl_cons]
    have hstep : bumpJob J1 acc a = bumpJob J2 acc a := by
      simp only [bumpJob, h a (List.mem_cons_self a as)]
    rw [hstep]
    exact ih _ (fun b hb => h b (List.mem_cons_of_mem a hb))

/-! ### Unfolding the handler along its control paths -/

theorem handle_admin (uid : String) (s : Store) (t : String)
    (hprof : fetchProfileRole s uid = some "ADMIN") (ht : t ≠ "") :
    handle (some uid) (some t) s = runChart s true [] t [Query.profileQ] := by
  simp [handle, hprof, ht]

theorem handle_hr (uid : String) (s : Store) (t : String)
    (hprof : fetchProfileRole s uid = some "HR") (ht : t ≠ "")
    (hjf : s.jobsFail = none) (hne : callerJobIds s uid ≠ []) :
    handle (some uid) (some t) s =
      runChart s false (callerJobIds s uid) t [Query.profileQ, Query.jobsQ] := by
  simp [handle, hprof, ht, hjf, hne]

theorem handle_hr_nojobs (uid : String) (s : Store) (t : String)
    (hprof : fetchProfileRole s uid = some "HR") (ht : t ≠ "")
    (hjf : s.jobsFail = none) (hz : callerJobIds s uid = []) :
    handle (some uid) (some t) s = (respOk [], [Query.profileQ, Query.jobsQ]) := by
  simp [handle, hprof, ht, hjf, hz]

theorem handle_hr_jobsfail (uid : String) (s : Store) (t : String) (e : StoreErr)
    (hprof : fetchProfileRole s uid = some "HR") (ht : t ≠ "")
    (hjf : s.jobsFail = some e) :
    handle (some uid) (some t) s =
      (resp500 e "Failed to fetch jobs", [Query.profileQ, Query.jobsQ]) := by
  simp [handle, hprof, ht, hjf]

theorem runChart_monthly (s : Store) (b : Bool) (ids : List String) (q : List Query)
    (hf : s.appsFail = none) :
    runChart s b ids "monthly" q =
      (respOk ((monthlyData (fetchAppsMonthly s b ids)).map MonthAgg.toRow),
        q ++ [Query.appsQ]) := by
  simp [runChart, hf]

theorem runChart_byJob (s : Store) (b : Bool) (ids : List String) (q : List Query)
    (hf : s.appsFail = none) :
    runChart s b ids "by-job" q =
      (respOk ((jobData s.jobs (fetchAppsScoped s b ids)).map JobAgg.toRow),
        q ++ [Query.appsQ]) := by
  simp [runChart, hf]

theorem runChart_invalid (s : Store) (b : Bool) (ids : List String) (q : List Query)
    (t : String) (h1 : t ≠ "monthly") (h2 : t ≠ "by-job") :
    runChart s b ids t q = (resp400invalid t, q) := by
  simp [runChart, h1, h2]

/-! ### Claim C8: unauthenticated requests -/

/-- C8: a request without a valid session is answered with the 401
`success:false` envelope regardless of the `type` parameter, and no store
query (profile, jobs or applications) is issued. -/
theorem C8_unauthenticated (t : Option String) (s : Store) :
    GET none t s = resp401 ∧ resp401.status = 401 ∧ resp401.success = false ∧
      (handle none t s).2 = [] :=
  ⟨rfl, rfl, rfl, rfl⟩

/-! ### Claim C3: HR caller owning zero jobs -/

/-- C3: an HR caller whose job list is fetched successfully and is empty
receives `200 {success:true, data:[]}` for both chart types, and the
applications store is never queried in that request. -/
theorem C3_hr_zero_jobs (uid : String) (s : Store) (t : String)
    (hprof : fetchProfileRole s uid = some "HR")
    (hjf : s.jobsFail = none)
    (hz : callerJobIds s uid = [])
    (ht : t = "monthly" ∨ t = "by-job") :
    handle (some uid) (some t) s = (respOk [], [Query.profileQ, Query.jobsQ]) ∧
      Query.appsQ ∉ (handle (some uid) (some t) s).2 := by
  have htne : t ≠ "" := by rcases ht with rfl | rfl <;> simp
  have h := handle_hr_nojobs uid s t hprof htne hjf hz
  refine ⟨h, ?_⟩
  rw [h]
  simp

def sC3 : Store :=
  { profiles := [("u1", "HR")]
    profileFail := none
    jobs := [⟨"j9", "Backend Dev", "u2"⟩]
    jobsFail := none
    applications := [⟨some "j9", ⟨2024, 1, 1⟩⟩]
    appsFail := none }

/-- Witness for C3 at a concrete store in which another user owns a job
with an application. -/
theorem C3_hr_zero_jobs_witness :
    handle (some "u1") (some "monthly") sC3 = (respOk [], [Query.profileQ, Query.jobsQ]) ∧
      Query.appsQ ∉ (handle (some "u1") (some "monthly") sC3).2 :=
  C3_hr_zero_jobs "u1" sC3 "monthly" (by decide) (by decide) (by decide) (Or.inl rfl)

/-! ### Claim C2: validation of the `type` parameter (corrected) -/

def sC2 : Store :=
  { profiles := [("hr0", "HR")]
    profileFail := none
    jobs := [⟨"jj", "Designer", "other"⟩]
    jobsFail := none
    applications := [⟨some "jj", ⟨2024, 5, 2⟩⟩]
    appsFail := none }

/-- C2 fails as stated: an authenticated HR caller owning zero jobs who
sends the invalid type `bogus` receives status 200 with empty data instead
of a 400; moreover an absent `type` produces the fixed message
`Missing required parameter: type`, which names neither the invalid value
nor the supported set. -/
theorem C2_counterexample :
    fetchProfileRole sC2 "hr0" = some "HR" ∧
      callerJobIds sC2 "hr0" = [] ∧
      GET (some "hr0") (some "bogus") sC2 = respOk [] ∧
      (GET (some "hr0") (some "bogus") sC2).status = 200 ∧
      ¬ (GET (some "hr0") (some "bogus") sC2).status = 400 ∧
      GET (some "hr0") none sC2 = resp400missing ∧
      resp400missing.error = some "Missing required parameter: type" := by
  decide

/-- C2 (amended): for an authenticated caller whose profile role is HR or
ADMIN, an absent or empty `type` yields 400 with the fixed message
`Missing required parameter: type`; a nonempty `type` outside
{monthly, by-job} yields 400 with a message naming the invalid value and
the supported set — except that an HR caller whose successfully fetched
job list is empty receives the empty-scope success `200 {success:true,
data:[]}` instead. -/
theorem C2_param_validation (uid : String) (s : Store) (role : String) (t : String)
    (hprof : fetchProfileRole s uid = some role)
    (hrole : role = "HR" ∨ role = "ADMIN")
    (ht1 : t ≠ "") (ht2 : t ≠ "monthly") (ht3 : t ≠ "by-job") :
    GET (some uid) none s = resp400missing ∧
      GET (some uid) (some "") s = resp400missing ∧
      resp400invalid t =
        ⟨400, false,
          some ("Invalid chart type: " ++ t ++ ". Supported types: monthly, by-job"),
          none, none⟩ ∧
      (role = "ADMIN" → GET (some uid) (some t) s = resp400invalid t) ∧
      (role = "HR" → s.jobsFail = none → callerJobIds s uid ≠ [] →
        GET (some uid) (some t) s = resp400invalid t) ∧
      (role = "HR" → s.jobsFail = none → callerJobIds s uid = [] →
        GET (some uid) (some t) s = respOk []) := by
  refine ⟨?_, ?_, rfl, ?_, ?_, ?_⟩
  · rcases hrole with rfl | rfl <;> simp [GET, handle, hprof]
  · rcases hrole with rfl | rfl <;> simp [GET, handle, hprof]
  · rintro rfl
    rw [GET, handle_admin uid s t hprof ht1,
      runChart_invalid s true [] [Query.profileQ] t ht2 ht3]
  · rintro rfl hjf hne
    rw [GET, handle_hr uid s t hprof ht1 hjf hne,
      runChart_invalid s false (callerJobIds s uid) [Query.profileQ, Query.jobsQ] t ht2 ht3]
  · rintro rfl hjf hz
    rw [GET, handle_hr_nojobs uid s t hprof ht1 hjf hz]

/-- Witness for the amended C2: the HR caller of `sC2` owns no jobs, so the
invalid type `bogus` is answered with the empty-scope success. -/
theorem C2_param_validation_witness :
    GET (some "hr0") (some "bogus") sC2 = respOk [] :=
  (C2_param_validation "hr0" sC2 "HR" "bogus" (by decide) (Or.inl rfl)
      (by decide) (by decide) (by decide)).2.2.2.2.2 rfl (by decide) (by decide)

theorem runChart_monthly_fail (s : Store) (b : Bool) (ids : List String)
    (q : List Query) (e : StoreErr) (hf : s.appsFail = some e) :
    runChart s b ids "monthly" q =
      (resp500 e "Failed to fetch applications", q ++ [Query.appsQ]) := by
  simp [runChart, hf]

theorem runChart_byJob_fail (s : Store) (b : Bool) (ids : List String)
    (q : List Query) (e : StoreErr) (hf : s.appsFail = some e) :
    runChart s b ids "by-job" q =
      (resp500 e "Failed to fetch job data", q ++ [Query.appsQ]) := by
  simp [runChart, hf]

theorem handle_profileFail (uid : String) (s : Store) (t : Option String)
    (h : s.profileFail.isSome = true) :
    handle (some uid) t s = (resp404, [Query.profileQ]) := by
  have hp : fetchProfileRole s uid = none := by simp [fetchProfileRole, h]
  simp [handle, hp]

theorem runChart_cases (s : Store) (b : Bool) (ids : List String) (ct : String)
    (q : List Query) :
    (∃ e f, (runChart s b ids ct q).1 = resp500 e f) ∨
      (∃ rows, (runChart s b ids ct q).1 = respOk rows) ∨
      (runChart s b ids ct q).1 = resp400invalid ct := by
  by_cases h1 : ct = "monthly"
  · subst h1
    cases haf : s.appsFail with
    | some e =>
      left
      exact ⟨e, "Failed to fetch applications", by rw [runChart_monthly_fail s b ids q e haf]⟩
    | none =>
      right; left
      exact ⟨_, by rw [runChart_monthly s b ids q haf]⟩
  · by_cases h2 : ct = "by-job"
    · subst h2
      cases haf : s.appsFail with
      | some e =>
        left
        exact ⟨e, "Failed to fetch job data", by rw [runChart_byJob_fail s b ids q e haf]⟩
      | none =>
        right; left
        exact ⟨_, by rw [runChart_byJob s b ids q haf]⟩
    · right; right
      rw [runChart_invalid s b ids q ct h1 h2]

/-- Every run of the handler ends in one of the seven structured reply
shapes; no other value can escape. -/
theorem handle_cases (a : Option String) (t : Option String) (s : Store) :
    GET a t s = resp401 ∨ GET a t s = resp404 ∨ GET a t s = resp403 ∨
      GET a t s = resp400missing ∨ (∃ x, GET a t s = resp400invalid x) ∨
      (∃ e f, GET a t s = resp500 e f) ∨ ∃ rows, GET a t s = respOk rows := by
  rcases a with _ | uid
  · left; rfl
  · cases hpr : fetchProfileRole s uid with
    | none =>
      right; left
      simp [GET, handle, hpr]
    | some role =>
      by_cases hrc : role ≠ "HR" ∧ role ≠ "ADMIN"
      · right; right; left
        simp only [GET, handle, hpr]
        rw [if_pos hrc]
      · rcases t with _ | ct
        · right; right; right; left
          simp only [GET, handle, hpr]
          rw [if_neg hrc]
        · by_cases hce : ct = ""
          · subst hce
            right; right; right; left
            simp only [GET, handle, hpr]
            rw [if_neg hrc]
            simp
          · by_cases hadm : role = "ADMIN"
            · subst hadm
              rw [GET, handle_admin uid s ct hpr hce]
              rcases runChart_cases s true [] ct [Query.profileQ] with ⟨e, f, hh⟩ | ⟨rows, hh⟩ | hh
              · right; right; right; right; right; left; exact ⟨e, f, hh⟩
              · right; right; right; right; right; right; exact ⟨rows, hh⟩
              · right; right; right; right; left; exact ⟨ct, hh⟩
            · have hhr : role = "HR" := by
                by_contra hne
                exact hrc ⟨hne, hadm⟩
              subst hhr
              cases hjf : s.jobsFail with
              | some e =>
                right; right; right; right; right; left
                exact ⟨e, "Failed to fetch jobs", by
                  rw [GET, handle_hr_jobsfail uid s ct e hpr hce hjf]⟩
              | none =>
                by_cases hz : callerJobIds s uid = []
                · right; right; right; right; right; right
                  exact ⟨[], by rw [GET, handle_hr_nojobs uid s ct hpr hce hjf hz]⟩
                · rw [GET, handle_hr uid s ct hpr hce hjf hz]
                  rcases runChart_cases s false (callerJobIds s uid) ct
                      [Query.profileQ, Query.jobsQ] with ⟨e, f, hh⟩ | ⟨rows, hh⟩ | hh
                  · right; right; right; right; right; left; exact ⟨e, f, hh⟩
                  · right; right; right; right; right; right; exact ⟨rows, hh⟩
                  · right; right; right; right; left; exact ⟨ct, hh⟩

/-! ### Claim C9: failure envelopes (corrected) -/

def eC9 : StoreErr := ⟨"connection reset", "tcp failure", "", "08006"⟩

def sC9 : Store :=
  { profiles := [("u9", "HR")]
    profileFail := some eC9
    jobs := []
    jobsFail := none
    applications := []
    appsFail := none }

/-- C9 fails as stated: a failure of the profile data-store call is
reported as 404 `Profile not found` without the store's message or code,
not as a 500 envelope built from the store error. -/
theorem C9_counterexample :
    sC9.profileFail = some eC9 ∧
      GET (some "u9") (some "monthly") sC9 = resp404 ∧
      (GET (some "u9") (some "monthly") sC9).status = 404 ∧
      ¬ (GET (some "u9") (some "monthly") sC9).status = 500 ∧
      ¬ (GET (some "u9") (some "monthly") sC9).error = some eC9.message := by
  decide

/-- C9 (amended): failures of the jobs and applications store calls are
reported as 500 envelopes carrying `message || details || <generic>` and
`code || "UNKNOWN_ERROR"`; a failure of the profile store call is reported
as the 404 `Profile not found` envelope instead; and every possible
response is a structured envelope — either 200 with `success:true` and a
data array, or an error status in {400,401,403,404,500} with
`success:false` and an error message. -/
theorem C9_failure_envelopes :
    (∀ uid s t e, fetchProfileRole s uid = some "HR" → t ≠ "" →
        s.jobsFail = some e →
        GET (some uid) (some t) s = resp500 e "Failed to fetch jobs") ∧
      (∀ uid s e, fetchProfileRole s uid = some "ADMIN" → s.appsFail = some e →
        GET (some uid) (some "monthly") s = resp500 e "Failed to fetch applications" ∧
        GET (some uid) (some "by-job") s = resp500 e "Failed to fetch job data") ∧
      (∀ uid s e, fetchProfileRole s uid = some "HR" → s.jobsFail = none →
        callerJobIds s uid ≠ [] → s.appsFail = some e →
        GET (some uid) (some "monthly") s = resp500 e "Failed to fetch applications" ∧
        GET (some uid) (some "by-job") s = resp500 e "Failed to fetch job data") ∧
      (∀ uid t s, s.profileFail.isSome = true → GET (some uid) t s = resp404) ∧
      (∀ e f, (resp500 e f).status = 500 ∧ (resp500 e f).success = false ∧
        (resp500 e f).error = some (jsOr e.message (jsOr e.details f)) ∧
        (resp500 e f).code = some (jsOr e.code "UNKNOWN_ERROR")) ∧
      (∀ a t s, ((GET a t s).status = 200 ∧ (GET a t s).success = true ∧
          ¬ (GET a t s).data = none) ∨
        ((GET a t s).status ∈ ([400, 401, 403, 404, 500] : List Nat) ∧
          (GET a t s).success = false ∧ ¬ (GET a t s).error = none)) := by
  refine ⟨?_, ?_, ?_, ?_, ?_, ?_⟩
  · intro uid s t e hprof ht hjf
    rw [GET, handle_hr_jobsfail uid s t e hprof ht hjf]
  · intro uid s e hprof haf
    constructor
    · rw [GET, handle_admin uid s "monthly" hprof (by decide),
        runChart_monthly_fail s true [] [Query.profileQ] e haf]
    · rw [GET, handle_admin uid s "by-job" hprof (by decide),
        runChart_byJob_fail s true [] [Query.profileQ] e haf]
  · intro uid s e hprof hjf hne haf
    constructor
    · rw [GET, handle_hr uid s "monthly" hprof (by decide) hjf hne,
        runChart_monthly_fail s false (callerJobIds s uid)
          [Query.profileQ, Query.jobsQ] e haf]
    · rw [GET, handle_hr uid s "by-job" hprof (by decide) hjf hne,
        runChart_byJob_fail s false (callerJobIds s uid)
          [Query.profileQ, Query.jobsQ] e haf]
  · intro uid t s h
    rw [GET, handle_profileFail uid s t h]
  · intro e f
    exact ⟨rfl, rfl, rfl, rfl⟩
  · intro a t s
    rcases handle_cases a t s with h | h | h | h | ⟨x, h⟩ | ⟨e, f, h⟩ | ⟨rows, h⟩ <;>
      rw [h] <;> simp [resp401, resp404, resp403, resp400missing, resp400invalid,
        resp500, respOk]

def sC9w : Store :=
  { profiles := [("u9", "HR")]
    profileFail := none
    jobs := [⟨"ja", "Writer", "u9"⟩]
    jobsFail := some eC9
    applications := []
    appsFail := none }

/-- Witness for the amended C9: a failing jobs fetch for an HR caller is
reported as a 500 envelope carrying the store's message and code. -/
theorem C9_failure_envelopes_witness :
    GET (some "u9") (some "monthly") sC9w = resp500 eC9 "Failed to fetch jobs" :=
  C9_failure_envelopes.1 "u9" sC9w "monthly" eC9 (by decide) (by decide) (by decide)

/-! ### Claim C1: HR scope isolation -/

/-- C1: the response an HR caller receives is derived only from the
caller's jobs and from applications whose `job_id` is among those jobs:
two stores (with the primary-key invariant that job ids are unique) that
agree on the caller's profile, on the stores' failure behaviour, on the
caller's jobs, and on the sequence of applications inside the caller's
scope produce identical responses for every `type` parameter, however much
their remaining jobs and applications differ. -/
theorem C1_scope_isolation (uid : String) (s1 s2 : Store)
    (hpf : s1.profileFail = s2.profileFail)
    (hps : s1.profiles = s2.profiles)
    (hrole : fetchProfileRole s1 uid = some "HR")
    (hjf : s1.jobsFail = s2.jobsFail)
    (haf : s1.appsFail = s2.appsFail)
    (hjobs : callerJobs s1 uid = callerJobs s2 uid)
    (hnd1 : (s1.jobs.map Job.id).Nodup)
    (hnd2 : (s2.jobs.map Job.id).Nodup)
    (happs : s1.applications.filter (scopeFilter (callerJobIds s1 uid)) =
      s2.applications.filter (scopeFilter (callerJobIds s2 uid))) :
    ∀ t, GET (some uid) t s1 = GET (some uid) t s2 := by
  have hrole2 : fetchProfileRole s2 uid = some "HR" := by
    rw [fetchProfileRole, ← hpf, ← hps, ← fetchProfileRole]
    exact hrole
  have hids : callerJobIds s1 uid = callerJobIds s2 uid := by
    rw [callerJobIds, callerJobIds, hjobs]
  intro t
  rcases t with _ | ct
  · simp [GET, handle, hrole, hrole2]
  · by_cases hce : ct = ""
    · subst hce
      simp [GET, handle, hrole, hrole2]
    · cases hjf1 : s1.jobsFail with
      | some e =>
        have hjf2 : s2.jobsFail = some e := by rw [← hjf]; exact hjf1
        rw [GET, GET, handle_hr_jobsfail uid s1 ct e hrole hce hjf1,
          handle_hr_jobsfail uid s2 ct e hrole2 hce hjf2]
      | none =>
        have hjf2 : s2.jobsFail = none := by rw [← hjf]; exact hjf1
        by_cases hz : callerJobIds s1 uid = []
        · have hz2 : callerJobIds s2 uid = [] := by rw [← hids]; exact hz
          rw [GET, GET, handle_hr_nojobs uid s1 ct hrole hce hjf1 hz,
            handle_hr_nojobs uid s2 ct hrole2 hce hjf2 hz2]
        · have hz2 : callerJobIds s2 uid ≠ [] := by rw [← hids]; exact hz
          rw [GET, GET, handle_hr uid s1 ct hrole hce hjf1 hz,
            handle_hr uid s2 ct hrole2 hce hjf2 hz2]
          have hfa : fetchAppsScoped s1 false (callerJobIds s1 uid) =
              fetchAppsScoped s2 false (callerJobIds s2 uid) := by
            rw [fetchAppsScoped, fetchAppsScoped, if_pos ⟨rfl, hz⟩, if_pos ⟨rfl, hz2⟩]
            exact happs
          by_cases hm : ct = "monthly"
          · subst hm
            cases haf1 : s1.appsFail with
            | some e =>
              have haf2 : s2.appsFail = some e := by rw [← haf]; exact haf1
              rw [runChart_monthly_fail s1 false _ _ e haf1,
                runChart_monthly_fail s2 false _ _ e haf2]
            | none =>
              have haf2 : s2.appsFail = none := by rw [← haf]; exact haf1
              rw [runChart_monthly s1 false _ _ haf1, runChart_monthly s2 false _ _ haf2]
              simp only [fetchAppsMonthly, hfa]
          · by_cases hb : ct = "by-job"
            · subst hb
              cases haf1 : s1.appsFail with
              | some e =>
                have haf2 : s2.appsFail = some e := by rw [← haf]; exact haf1
                rw [runChart_byJob_fail s1 false _ _ e haf1,
                  runChart_byJob_fail s2 false _ _ e haf2]
              | none =>
                have haf2 : s2.appsFail = none := by rw [← haf]; exact haf1
                rw [runChart_byJob s1 false _ _ haf1, runChart_byJob s2 false _ _ haf2]
                have htitles : ∀ a ∈ fetchAppsScoped s1 false (callerJobIds s1 uid),
                    titleOf s1.jobs a = titleOf s2.jobs a := by
                  intro a ha
                  rw [fetchAppsScoped, if_pos ⟨rfl, hz⟩] at ha
                  exact titleOf_eq_of_callerJobs hjobs hnd1 hnd2 (List.of_mem_filter ha)
                have hjd : jobData s1.jobs (fetchAppsScoped s1 false (callerJobIds s1 uid)) =
                    jobData s2.jobs (fetchAppsScoped s2 false (callerJobIds s2 uid)) := by
                  rw [← hfa, jobData, jobData, jobGroups, jobGroups,
                    jobGroups_fold_congr _ _ htitles]
                rw [hjd]
            · rw [runChart_invalid s1 false _ _ ct hm hb,
                runChart_invalid s2 false _ _ ct hm hb]

def sC1a : Store :=
  { profiles := [("u1", "HR")]
    profileFail := none
    jobs := [⟨"j1", "Engineer", "u1"⟩, ⟨"j2", "Designer", "u2"⟩]
    jobsFail := none
    applications := [⟨some "j1", ⟨2024, 1, 1⟩⟩, ⟨some "j2", ⟨2024, 1, 2⟩⟩]
    appsFail := none }

def sC1b : Store :=
  { profiles := [("u1", "HR")]
    profileFail := none
    jobs := [⟨"j1", "Engineer", "u1"⟩, ⟨"j2", "Designer", "u2"⟩]
    jobsFail := none
    applications := [⟨some "j1", ⟨2024, 1, 1⟩⟩, ⟨some "j2", ⟨2024, 3, 9⟩⟩,
      ⟨some "j2", ⟨2024, 4, 1⟩⟩, ⟨none, ⟨2024, 4, 4⟩⟩]
    appsFail := none }

/-- Witness for C1: two concrete stores that differ in the other user's
applications (including a null `job_id` row) give the HR caller the same
by-job response. -/
theorem C1_scope_isolation_witness :
    GET (some "u1") (some "by-job") sC1a = GET (some "u1") (some "by-job") sC1b :=
  C1_scope_isolation "u1" sC1a sC1b (by decide) (by decide) (by decide) (by decide)
    (by decide) (by decide) (by decide) (by decide) (by decide) (some "by-job")

/-! ### Claim C4: by-job ordering, truncation and tie stability -/

/-- C4: every by-job result is ordered descending by count and truncated to
at most 10 groups (exactly 10 whenever at least 10 groups exist), every
returned group's count is at least every dropped group's count, ties keep
the first-encounter order of the fetched rows, a reachable by-job request
answers exactly with those rows, and in the concrete two-job example job A
with 5 applications precedes job B with 2. -/
theorem C4_byjob_ordering :
    (∀ jobs apps, (jobData jobs apps).Pairwise (fun a b => b.count ≤ a.count)) ∧
      (∀ jobs apps, (jobData jobs apps).length ≤ 10) ∧
      (∀ jobs apps, 10 ≤ (jobGroups jobs apps).length → (jobData jobs apps).length = 10) ∧
      (∀ jobs apps, ∀ r ∈ jobData jobs apps,
        ∀ d ∈ (jsSort countBefore (jobGroups jobs apps)).drop 10, d.count ≤ r.count) ∧
      (∀ jobs apps (a b : JobAgg), a.count = b.count → [a, b] <+ jobData jobs apps →
        [a, b] <+ jobGroups jobs apps) ∧
      (∀ uid s, fetchProfileRole s uid = some "ADMIN" → s.appsFail = none →
        GET (some uid) (some "by-job") s =
          respOk ((jobData s.jobs (fetchAppsScoped s true [])).map JobAgg.toRow)) ∧
      (∀ uid s, fetchProfileRole s uid = some "HR" → s.jobsFail = none →
        callerJobIds s uid ≠ [] → s.appsFail = none →
        GET (some uid) (some "by-job") s =
          respOk ((jobData s.jobs (fetchAppsScoped s false (callerJobIds s uid))).map
            JobAgg.toRow)) ∧
      jobData [⟨"A", "Alpha", "u"⟩, ⟨"B", "Beta", "u"⟩]
          [⟨some "B", ⟨2024, 1, 1⟩⟩, ⟨some "A", ⟨2024, 1, 2⟩⟩, ⟨some "A", ⟨2024, 1, 3⟩⟩,
            ⟨some "B", ⟨2024, 1, 4⟩⟩, ⟨some "A", ⟨2024, 1, 5⟩⟩, ⟨some "A", ⟨2024, 1, 6⟩⟩,
            ⟨some "A", ⟨2024, 1, 7⟩⟩] =
        [⟨"A", "Alpha", 5⟩, ⟨"B", "Beta", 2⟩] := by
  have hsorted : ∀ jobs apps,
      (jsSort countBefore (jobGroups jobs apps)).Pairwise (fun a b => b.count ≤ a.count) := by
    intro jobs apps
    have hs := jsSort_sorted countBefore countBefore_asym countBefore_trans
      (jobGroups jobs apps)
    exact hs.imp (fun h => by
      simp only [countBefore, decide_eq_false_iff_not] at h
      omega)
  refine ⟨?_, ?_, ?_, ?_, ?_, ?_, ?_, by decide⟩
  · intro jobs apps
    exact List.Pairwise.sublist (List.take_sublist 10 _) (hsorted jobs apps)
  · intro jobs apps
    simp only [jobData, List.length_take]
    exact min_le_left _ _
  · intro jobs apps h
    have hlen : (jsSort countBefore (jobGroups jobs apps)).length =
        (jobGroups jobs apps).length :=
      (jsSort_perm countBefore (jobGroups jobs apps)).length_eq
    simp only [jobData, List.length_take, hlen]
    omega
  · intro jobs apps r hr d hd
    have hs2 := hsorted jobs apps
    rw [← List.take_append_drop 10 (jsSort countBefore (jobGroups jobs apps))] at hs2
    obtain ⟨-, -, hcross⟩ := List.pairwise_append.mp hs2
    simp only [jobData] at hr
    exact hcross r hr d hd
  · intro jobs apps a b hab hsub
    simp only [jobData] at hsub
    have h1 : [a, b] <+ jsSort countBefore (jobGroups jobs apps) :=
      hsub.trans (List.take_sublist 10 _)
    have h2 := List.Sublist.filter (fun g => g.count == a.count) h1
    have hfa : ([a, b].filter (fun g => g.count == a.count)) = [a, b] := by
      simp [hab]
    rw [hfa, jsSort_filter_count] at h2
    exact h2.trans (List.filter_sublist _)
  · intro uid s hprof haf
    rw [GET, handle_admin uid s "by-job" hprof (by decide),
      runChart_byJob s true [] [Query.profileQ] haf]
  · intro uid s hprof hjf hne haf
    rw [GET, handle_hr uid s "by-job" hprof (by decide) hjf hne,
      runChart_byJob s false (callerJobIds s uid) [Query.profileQ, Query.jobsQ] haf]

def sC4 : Store :=
  { profiles := [("ad", "ADMIN")]
    profileFail := none
    jobs := [⟨"A", "Alpha", "u"⟩, ⟨"B", "Beta", "u"⟩]
    jobsFail := none
    applications := [⟨some "B", ⟨2024, 1, 1⟩⟩, ⟨some "A", ⟨2024, 1, 2⟩⟩,
      ⟨some "A", ⟨2024, 1, 3⟩⟩, ⟨some "B", ⟨2024, 1, 4⟩⟩, ⟨some "A", ⟨2024, 1, 5⟩⟩,
      ⟨some "A", ⟨2024, 1, 6⟩⟩, ⟨some "A", ⟨2024, 1, 7⟩⟩]
    appsFail := none }

/-- Witness for C4: the concrete ADMIN by-job request returns job A (5
applications) before job B (2). -/
theorem C4_byjob_ordering_witness :
    GET (some "ad") (some "by-job") sC4 =
      respOk [Row.jobRow "A" "Alpha" 5, Row.jobRow "B" "Beta" 2] := by
  have h := C4_byjob_ordering.2.2.2.2.2.1 "ad" sC4 (by decide) (by decide)
  rw [h]
  decide

/-! ### Shared facts about the computed monthly rows -/

/-- The row list the monthly branch sorts, before truncation. -/
def monthRows (apps : List Application) : List MonthAgg :=
  (monthEntries apps).map fun p => MonthAgg.mk p.1 p.2

theorem monthlyData_eq (apps : List Application) :
    monthlyData apps =
      (jsSort monthBefore (monthRows apps)).drop
        ((jsSort monthBefore (monthRows apps)).length - 12) := rfl

theorem monthRows_months (apps : List Application) :
    (monthRows apps).map MonthAgg.month = (monthEntries apps).map Prod.fst := by
  rw [monthRows, List.map_map]
  rfl

theorem sortedMonths_perm (apps : List Application) :
    (jsSort monthBefore (monthRows apps)).map MonthAgg.month ~
      (monthEntries apps).map Prod.fst := by
  rw [← monthRows_months]
  exact (jsSort_perm monthBefore (monthRows apps)).map MonthAgg.month

theorem sortedMonths_nodup (apps : List Application) :
    ((jsSort monthBefore (monthRows apps)).map MonthAgg.month).Nodup :=
  (sortedMonths_perm apps).symm.nodup (monthEntries_inv apps).1

theorem sortedMonths_pairwise_lt (apps : List Application) :
    (jsSort monthBefore (monthRows apps)).Pairwise (fun a b => a.month < b.month) := by
  have hle : (jsSort monthBefore (monthRows apps)).Pairwise
      (fun a b => a.month ≤ b.month) := by
    have hs := jsSort_sorted monthBefore monthBefore_asym monthBefore_trans (monthRows apps)
    refine hs.imp (fun h => ?_)
    rename_i a b
    refine le_of_not_lt (fun hc => ?_)
    rw [(monthBefore_iff b a).mpr hc] at h
    exact Bool.noConfusion h
  have hne : (jsSort monthBefore (monthRows apps)).Pairwise
      (fun a b => a.month ≠ b.month) :=
    List.pairwise_map.mp (sortedMonths_nodup apps)
  exact (hle.and hne).imp (fun h => lt_of_le_of_ne h.1 h.2)

theorem monthlyData_sublist (apps : List Application) :
    monthlyData apps <+ jsSort monthBefore (monthRows apps) := by
  rw [monthlyData_eq]
  exact List.drop_sublist _ _

theorem monthlyData_mem_facts (apps : List Application) {r : MonthAgg}
    (hr : r ∈ monthlyData apps) :
    r.month ∈ apps.map monthKeyOf ∧
      r.count = (apps.map monthKeyOf).count r.month := by
  have hS : r ∈ jsSort monthBefore (monthRows apps) := (monthlyData_sublist apps).subset hr
  have hrows : r ∈ monthRows apps :=
    ((jsSort_perm monthBefore (monthRows apps)).mem_iff).mp hS
  obtain ⟨p, hp, rfl⟩ := List.mem_map.mp hrows
  obtain ⟨hnd, hcnt, hmem⟩ := monthEntries_inv apps
  exact ⟨(hmem p.1).mpr (List.mem_map_of_mem Prod.fst hp), hcnt p hp⟩

/-- The distinct entry keys are, up to order, the distinct month keys
occurring in the fetched rows. -/
theorem monthEntries_keys_perm_dedup (apps : List Application) :
    (monthEntries apps).map Prod.fst ~ (apps.map monthKeyOf).dedup := by
  obtain ⟨hnd, -, hmem⟩ := monthEntries_inv apps
  rw [List.perm_ext_iff_of_nodup hnd (List.nodup_dedup _)]
  intro k
  rw [List.mem_dedup]
  exact (hmem k).symm

theorem sortedMonths_length (apps : List Application) :
    (jsSort monthBefore (monthRows apps)).length =
      ((apps.map monthKeyOf).dedup).length := by
  have h1 := (jsSort_perm monthBefore (monthRows apps)).length_eq
  have h2 : (monthRows apps).length = (monthEntries apps).length :=
    List.length_map _ _
  have h3 : ((monthEntries apps).map Prod.fst).length = (monthEntries apps).length :=
    List.length_map _ _
  have h4 := (monthEntries_keys_perm_dedup apps).length_eq
  omega

/-! ### Claim C5: monthly truncation to the 12 latest months -/

/-- C5: when the fetched applications span more than 12 distinct month
keys, the monthly result has exactly 12 rows, strictly ascending by month
key, each row carrying a month present in the data with its count; every
month present in the data but absent from the result is strictly earlier
than every returned month; the result is literally the tail of the
ascending-sorted sequence (no re-sorting after truncation); and a
reachable monthly request answers exactly with those rows. -/
theorem C5_monthly_truncation (apps : List Application)
    (h : 12 < ((apps.map monthKeyOf).dedup).length) :
    (monthlyData apps).length = 12 ∧
      (monthlyData apps).Pairwise (fun a b => a.month < b.month) ∧
      (∀ r ∈ monthlyData apps, r.month ∈ apps.map monthKeyOf ∧
        r.count = (apps.map monthKeyOf).count r.month) ∧
      (∀ m ∈ apps.map monthKeyOf, (∀ r ∈ monthlyData apps, r.month ≠ m) →
        ∀ r ∈ monthlyData apps, m < r.month) ∧
      monthlyData apps =
        (jsSort monthBefore (monthRows apps)).drop
          ((jsSort monthBefore (monthRows apps)).length - 12) ∧
      (∀ uid s, fetchProfileRole s uid = some "ADMIN" → s.appsFail = none →
        GET (some uid) (some "monthly") s =
          respOk ((monthlyData (fetchAppsMonthly s true [])).map MonthAgg.toRow)) ∧
      (∀ uid s, fetchProfileRole s uid = some "HR" → s.jobsFail = none →
        callerJobIds s uid ≠ [] → s.appsFail = none →
        GET (some uid) (some "monthly") s =
          respOk ((monthlyData (fetchAppsMonthly s false (callerJobIds s uid))).map
            MonthAgg.toRow)) := by
  have hlenS := sortedMonths_length apps
  refine ⟨?_, ?_, fun r hr => monthlyData_mem_facts apps hr, ?_, monthlyData_eq apps, ?_, ?_⟩
  · rw [monthlyData_eq, List.length_drop]
    omega
  · exact List.Pairwise.sublist (monthlyData_sublist apps) (sortedMonths_pairwise_lt apps)
  · intro m hm hnone r hr
    obtain ⟨hnd, hcnt, hmem⟩ := monthEntries_inv apps
    have hkm : m ∈ (monthEntries apps).map Prod.fst := (hmem m).mp hm
    have hSm : m ∈ (jsSort monthBefore (monthRows apps)).map MonthAgg.month :=
      (sortedMonths_perm apps).mem_iff.mpr hkm
    obtain ⟨g, hgS, hgm⟩ := List.mem_map.mp hSm
    have hres := monthlyData_eq apps
    have hsplit := List.take_append_drop
      ((jsSort monthBefore (monthRows apps)).length - 12) (jsSort monthBefore (monthRows apps))
    have hcases : g ∈ (jsSort monthBefore (monthRows apps)).take
          ((jsSort monthBefore (monthRows apps)).length - 12) ∨
        g ∈ (jsSort monthBefore (monthRows apps)).drop
          ((jsSort monthBefore (monthRows apps)).length - 12) := by
      rw [← List.mem_append, hsplit]
      exact hgS
    rcases hcases with hgt | hgd
    · have hp := sortedMonths_pairwise_lt apps
      rw [← hsplit] at hp
      obtain ⟨-, -, hcross⟩ := List.pairwise_append.mp hp
      have hlt := hcross g hgt r (by rw [hres] at hr; exact hr)
      rw [← hgm]
      exact hlt
    · exact absurd hgm (hnone g (by rw [hres]; exact hgd))
  · intro uid s hprof haf
    rw [GET, handle_admin uid s "monthly" hprof (by decide),
      runChart_monthly s true [] [Query.profileQ] haf]
  · intro uid s hprof hjf hne haf
    rw [GET, handle_hr uid s "monthly" hprof (by decide) hjf hne,
      runChart_monthly s false (callerJobIds s uid) [Query.profileQ, Query.jobsQ] haf]

def appsC5 : List Application :=
  [⟨some "j", ⟨2024, 1, 1⟩⟩, ⟨some "j", ⟨2024, 2, 1⟩⟩, ⟨some "j", ⟨2024, 3, 1⟩⟩,
    ⟨some "j", ⟨2024, 4, 1⟩⟩, ⟨some "j", ⟨2024, 5, 1⟩⟩, ⟨some "j", ⟨2024, 6, 1⟩⟩,
    ⟨some "j", ⟨2024, 7, 1⟩⟩, ⟨some "j", ⟨2024, 8, 1⟩⟩, ⟨some "j", ⟨2024, 9, 1⟩⟩,
    ⟨some "j", ⟨2024, 10, 1⟩⟩, ⟨some "j", ⟨2024, 11, 1⟩⟩, ⟨some "j", ⟨2024, 12, 1⟩⟩,
    ⟨some "j", ⟨2025, 1, 1⟩⟩]

/-- Witness for C5 at 13 distinct months: exactly 12 rows survive. -/
theorem C5_monthly_truncation_witness : (monthlyData appsC5).length = 12 :=
  (C5_monthly_truncation appsC5 (by decide)).1

/-! ### Claim C6: monthly aggregation shape (corrected) -/

def appsC6x : List Application :=
  [⟨some "j", ⟨2024, 1, 1⟩⟩, ⟨some "j", ⟨2024, 2, 1⟩⟩, ⟨some "j", ⟨2024, 3, 1⟩⟩,
    ⟨some "j", ⟨2024, 4, 1⟩⟩, ⟨some "j", ⟨2024, 5, 1⟩⟩, ⟨some "j", ⟨2024, 6, 1⟩⟩,
    ⟨some "j", ⟨2024, 7, 1⟩⟩, ⟨some "j", ⟨2024, 8, 1⟩⟩, ⟨some "j", ⟨2024, 9, 1⟩⟩,
    ⟨some "j", ⟨2024, 10, 1⟩⟩, ⟨some "j", ⟨2024, 11, 1⟩⟩, ⟨some "j", ⟨2024, 12, 1⟩⟩,
    ⟨some "j", ⟨2025, 1, 1⟩⟩]

def sC6 : Store :=
  { profiles := [("ad6", "ADMIN")]
    profileFail := none
    jobs := []
    jobsFail := none
    applications := appsC6x
    appsFail := none }

/-- C6 fails as stated: in an unrestricted monthly request over 13 distinct
months the result holds one row for only 12 of the 13 month keys present in
the data — the key `2024-01` is present but gets no row. -/
theorem C6_counterexample :
    "2024-01" ∈ sC6.applications.map monthKeyOf ∧
      ((sC6.applications.map monthKeyOf).dedup).length = 13 ∧
      GET (some "ad6") (some "monthly") sC6 =
        respOk [Row.monthRow "2024-02" 1, Row.monthRow "2024-03" 1,
          Row.monthRow "2024-04" 1, Row.monthRow "2024-05" 1, Row.monthRow "2024-06" 1,
          Row.monthRow "2024-07" 1, Row.monthRow "2024-08" 1, Row.monthRow "2024-09" 1,
          Row.monthRow "2024-10" 1, Row.monthRow "2024-11" 1, Row.monthRow "2024-12" 1,
          Row.monthRow "2025-01" 1] ∧
      ¬ (∃ r ∈ monthlyData sC6.applications, r.month = "2024-01") := by
  decide

def appsC6 : List Application :=
  [⟨some "j", ⟨2024, 1, 3⟩⟩, ⟨some "j", ⟨2024, 1, 9⟩⟩, ⟨some "j", ⟨2024, 2, 1⟩⟩,
    ⟨some "j", ⟨2024, 1, 20⟩⟩]

def sC6a : Store :=
  { profiles := [("ad6", "ADMIN")]
    profileFail := none
    jobs := []
    jobsFail := none
    applications := appsC6
    appsFail := none }

/-- C6 (amended): under unrestricted scope the concrete 2024-01 (×3) /
2024-02 (×1) request returns exactly those two rows; whenever the data
spans at most 12 distinct month keys the result has one row per distinct
month key present; and unconditionally every returned row carries a month
present in the data (zero-count months are never synthesized) with the
count of rows falling in that month. -/
theorem C6_monthly_aggregation :
    GET (some "ad6") (some "monthly") sC6a =
        respOk [Row.monthRow "2024-01" 3, Row.monthRow "2024-02" 1] ∧
      (∀ apps, ((apps.map monthKeyOf).dedup).length ≤ 12 →
        ∀ m, (∃ r ∈ monthlyData apps, r.month = m) ↔ m ∈ apps.map monthKeyOf) ∧
      (∀ apps, ∀ r ∈ monthlyData apps, r.month ∈ apps.map monthKeyOf ∧
        r.count = (apps.map monthKeyOf).count r.month) := by
  refine ⟨by decide, ?_, fun apps r hr => monthlyData_mem_facts apps hr⟩
  intro apps hle
  have hS : monthlyData apps = jsSort monthBefore (monthRows apps) := by
    rw [monthlyData_eq]
    have hlen := sortedMonths_length apps
    have hz : (jsSort monthBefore (monthRows apps)).length - 12 = 0 := by omega
    rw [hz, List.drop_zero]
  intro m
  constructor
  · rintro ⟨r, hr, rfl⟩
    exact (monthlyData_mem_facts apps hr).1
  · intro hm
    obtain ⟨hnd, hcnt, hmem⟩ := monthEntries_inv apps
    have hkm : m ∈ (monthEntries apps).map Prod.fst := (hmem m).mp hm
    have hSm : m ∈ (jsSort monthBefore (monthRows apps)).map MonthAgg.month :=
      (sortedMonths_perm apps).mem_iff.mpr hkm
    obtain ⟨g, hgS, hgm⟩ := List.mem_map.mp hSm
    exact ⟨g, by rw [hS]; exact hgS, hgm⟩

/-- Witness for the amended C6: the two-month data yields a row for
`2024-01`. -/
theorem C6_monthly_aggregation_witness :
    ∃ r ∈ monthlyData appsC6, r.month = "2024-01" :=
  (C6_monthly_aggregation.2.1 appsC6 (by decide) "2024-01").mpr (by decide)

/-! ### Claim C7: by-job titles and placeholder values -/

/-- C7: every by-job row takes its key and title from the first fetched
row of its group; a row whose `job_id` is null gets key `unknown` and a
failed (or empty) title join gets `Unknown Job`, a resolved join with a
nonempty title yields that job's title, and the two concrete placeholder
scenarios produce exactly the placeholder rows. -/
theorem C7_byjob_titles :
    (∀ jobs apps g, g ∈ jobData jobs apps →
      ∃ pre a post, apps = pre ++ a :: post ∧
        (∀ b ∈ pre, groupKey b ≠ g.job_id) ∧ groupKey a = g.job_id ∧
        titleOf jobs a = g.job_title) ∧
      (∀ jobs (a : Application), a.job_id = none →
        groupKey a = "unknown" ∧ titleOf jobs a = "Unknown Job") ∧
      (∀ jobs (a : Application) j, a.job_id = some j →
        jobs.find? (fun jb => jb.id == j) = none → titleOf jobs a = "Unknown Job") ∧
      (∀ jobs (a : Application) j jb, a.job_id = some j →
        jobs.find? (fun x => x.id == j) = some jb → jb.title ≠ "" →
        titleOf jobs a = jb.title) ∧
      jobData [] [⟨some "jX", ⟨2024, 1, 1⟩⟩] = [⟨"jX", "Unknown Job", 1⟩] ∧
      jobData [] [⟨none, ⟨2024, 1, 1⟩⟩] = [⟨"unknown", "Unknown Job", 1⟩] := by
  refine ⟨?_, ?_, ?_, ?_, by decide, by decide⟩
  · intro jobs apps g hg
    have hS : g ∈ jsSort countBefore (jobGroups jobs apps) :=
      (List.take_sublist 10 _).subset hg
    have hgrp : g ∈ jobGroups jobs apps :=
      (jsSort_perm countBefore (jobGroups jobs apps)).mem_iff.mp hS
    exact (jobGroups_inv jobs apps).2.2.1 g hgrp
  · intro jobs a h
    constructor
    · simp [groupKey, h]
    · simp [titleOf, h, jsOr]
  · intro jobs a j hj hf
    simp [titleOf, hj, hf, jsOr]
  · intro jobs a j jb hj hf ht
    simp [titleOf, hj, hf, jsOr, ht]

/-- Witness for C7: the dangling-reference request produces the
`Unknown Job` row, traced back to its first (only) fetched row. -/
theorem C7_byjob_titles_witness :
    ∃ pre a post,
      ([⟨some "jX", ⟨2024, 1, 1⟩⟩] : List Application) = pre ++ a :: post ∧
        (∀ b ∈ pre, groupKey b ≠ (⟨"jX", "Unknown Job", 1⟩ : JobAgg).job_id) ∧
        groupKey a = (⟨"jX", "Unknown Job", 1⟩ : JobAgg).job_id ∧
        titleOf [] a = (⟨"jX", "Unknown Job", 1⟩ : JobAgg).job_title :=
  C7_byjob_titles.1 [] [⟨some "jX", ⟨2024, 1, 1⟩⟩] ⟨"jX", "Unknown Job", 1⟩ (by decide)

/-! ### Claim C10: success rows have distinct keys and positive counts -/

theorem runChart_data_shape (s : Store) (b : Bool) (ids : List String) (ct : String)
    (q : List Query) (rows : List Row)
    (h : ((runChart s b ids ct q).1).data = some rows) :
    (∃ apps, rows = (monthlyData apps).map MonthAgg.toRow) ∨
      ∃ jobs apps, rows = (jobData jobs apps).map JobAgg.toRow := by
  by_cases h1 : ct = "monthly"
  · subst h1
    cases haf : s.appsFail with
    | some e =>
      rw [runChart_monthly_fail s b ids q e haf] at h
      exact absurd h (by simp [resp500])
    | none =>
      rw [runChart_monthly s b ids q haf] at h
      left
      refine ⟨fetchAppsMonthly s b ids, ?_⟩
      have h2 : some ((monthlyData (fetchAppsMonthly s b ids)).map MonthAgg.toRow) =
          some rows := h
      exact (Option.some.inj h2).symm
  · by_cases h2 : ct = "by-job"
    · subst h2
      cases haf : s.appsFail with
      | some e =>
        rw [runChart_byJob_fail s b ids q e haf] at h
        exact absurd h (by simp [resp500])
      | none =>
        rw [runChart_byJob s b ids q haf] at h
        right
        refine ⟨s.jobs, fetchAppsScoped s b ids, ?_⟩
        have h3 : some ((jobData s.jobs (fetchAppsScoped s b ids)).map JobAgg.toRow) =
            some rows := h
        exact (Option.some.inj h3).symm
    · rw [runChart_invalid s b ids q ct h1 h2] at h
      exact absurd h (by simp [resp400invalid])

theorem GET_data_shape (a t : Option String) (s : Store) (rows : List Row)
    (h : (GET a t s).data = some rows) :
    rows = [] ∨ (∃ apps, rows = (monthlyData apps).map MonthAgg.toRow) ∨
      ∃ jobs apps, rows = (jobData jobs apps).map JobAgg.toRow := by
  rcases a with _ | uid
  · exact absurd h (by simp [GET, handle, resp401])
  · cases hpr : fetchProfileRole s uid with
    | none => exact absurd h (by simp [GET, handle, hpr, resp404])
    | some role =>
      by_cases hrc : role ≠ "HR" ∧ role ≠ "ADMIN"
      · refine absurd h ?_
        simp only [GET, handle, hpr]
        rw [if_pos hrc]
        simp [resp403]
      · rcases t with _ | ct
        · refine absurd h ?_
          simp only [GET, handle, hpr]
          rw [if_neg hrc]
          simp [resp400missing]
        · by_cases hce : ct = ""
          · subst hce
            refine absurd h ?_
            simp only [GET, handle, hpr]
            rw [if_neg hrc]
            simp [resp400missing]
          · by_cases hadm : role = "ADMIN"
            · subst hadm
              rw [GET, handle_admin uid s ct hpr hce] at h
              exact Or.inr (runChart_data_shape s true [] ct [Query.profileQ] rows h)
            · have hhr : role = "HR" := by
                by_contra hne
                exact hrc ⟨hne, hadm⟩
              subst hhr
              cases hjf : s.jobsFail with
              | some e =>
                rw [GET, handle_hr_jobsfail uid s ct e hpr hce hjf] at h
                exact absurd h (by simp [resp500])
              | none =>
                by_cases hz : callerJobIds s uid = []
                · rw [GET, handle_hr_nojobs uid s ct hpr hce hjf hz] at h
                  left
                  have h2 : some ([] : List Row) = some rows := h
                  exact (Option.some.inj h2).symm
                · rw [GET, handle_hr uid s ct hpr hce hjf hz] at h
                  exact Or.inr (runChart_data_shape s false (callerJobIds s uid) ct
                    [Query.profileQ, Query.jobsQ] rows h)

theorem monthlyRows_distinct_pos (apps : List Application) :
    (((monthlyData apps).map MonthAgg.toRow).Pairwise fun r1 r2 => rowKey r1 ≠ rowKey r2) ∧
      ∀ r ∈ (monthlyData apps).map MonthAgg.toRow, 1 ≤ rowCount r := by
  constructor
  · rw [List.pairwise_map]
    have hlt : (monthlyData apps).Pairwise (fun a b => a.month < b.month) :=
      List.Pairwise.sublist (monthlyData_sublist apps) (sortedMonths_pairwise_lt apps)
    refine hlt.imp (fun h => ?_)
    rename_i a b
    simp only [MonthAgg.toRow, rowKey]
    intro he
    exact absurd (Sum.inl.inj he) (ne_of_lt h)
  · intro r hr
    obtain ⟨g, hg, rfl⟩ := List.mem_map.mp hr
    have hm := monthlyData_mem_facts apps hg
    show 1 ≤ g.count
    have hpos : 0 < (apps.map monthKeyOf).count g.month := by
      rw [List.count_pos_iff]
      exact hm.1
    omega

theorem jobRows_distinct_pos (jobs : List Job) (apps : List Application) :
    (((jobData jobs apps).map JobAgg.toRow).Pairwise fun r1 r2 => rowKey r1 ≠ rowKey r2) ∧
      ∀ r ∈ (jobData jobs apps).map JobAgg.toRow, 1 ≤ rowCount r := by
  obtain ⟨hnd, hcnt, hwit, hcov⟩ := jobGroups_inv jobs apps
  constructor
  · rw [List.pairwise_map]
    have hndS : ((jsSort countBefore (jobGroups jobs apps)).map JobAgg.job_id).Nodup :=
      ((jsSort_perm countBefore (jobGroups jobs apps)).map JobAgg.job_id).symm.nodup hnd
    have hndD : ((jobData jobs apps).map JobAgg.job_id).Nodup :=
      hndS.sublist ((List.take_sublist 10 _).map JobAgg.job_id)
    have hp : (jobData jobs apps).Pairwise (fun a b => a.job_id ≠ b.job_id) :=
      List.pairwise_map.mp hndD
    refine hp.imp (fun h => ?_)
    rename_i a b
    simp only [JobAgg.toRow, rowKey]
    intro he
    exact h (Sum.inr.inj he)
  · intro r hr
    obtain ⟨g, hg, rfl⟩ := List.mem_map.mp hr
    have hgrp : g ∈ jobGroups jobs apps :=
      (jsSort_perm countBefore (jobGroups jobs apps)).mem_iff.mp
        ((List.take_sublist 10 _).subset hg)
    show 1 ≤ g.count
    obtain ⟨pre, a, post, hsplit, -, hkey, -⟩ := hwit g hgrp
    have hmem : g.job_id ∈ apps.map groupKey := by
      rw [hsplit, List.map_append, List.map_cons]
      refine List.mem_append_right _ ?_
      rw [← hkey]
      exact List.mem_cons_self _ _
    have hc := hcnt g hgrp
    have hpos : 0 < (apps.map groupKey).count g.job_id := by
      rw [List.count_pos_iff]
      exact hmem
    omega

/-- C10: whichever data array a success response carries, its rows have
pairwise-distinct aggregation keys (month for monthly rows, job id for
by-job rows) and every row's count is at least 1, never 0. -/
theorem C10_success_rows (a t : Option String) (s : Store) (rows : List Row)
    (h : (GET a t s).data = some rows) :
    (rows.Pairwise fun r1 r2 => rowKey r1 ≠ rowKey r2) ∧ ∀ r ∈ rows, 1 ≤ rowCount r := by
  rcases GET_data_shape a t s rows h with rfl | ⟨apps, rfl⟩ | ⟨jobs, apps, rfl⟩
  · exact ⟨List.Pairwise.nil, by simp⟩
  · exact monthlyRows_distinct_pos apps
  · exact jobRows_distinct_pos jobs apps

def sC10 : Store :=
  { profiles := [("a10", "ADMIN")]
    profileFail := none
    jobs := [⟨"j1", "Pilot", "a10"⟩]
    jobsFail := none
    applications := [⟨some "j1", ⟨2024, 1, 1⟩⟩, ⟨some "j1", ⟨2024, 2, 1⟩⟩,
      ⟨none, ⟨2024, 3, 1⟩⟩]
    appsFail := none }

/-- Witness for C10 at a concrete ADMIN by-job response. -/
theorem C10_success_rows_witness :
    (([Row.jobRow "j1" "Pilot" 2, Row.jobRow "unknown" "Unknown Job" 1]).Pairwise
        fun r1 r2 => rowKey r1 ≠ rowKey r2) ∧
      ∀ r ∈ [Row.jobRow "j1" "Pilot" 2, Row.jobRow "unknown" "Unknown Job" 1],
        1 ≤ rowCount r :=
  C10_success_rows (some "a10") (some "by-job") sC10
    [Row.jobRow "j1" "Pilot" 2, Row.jobRow "unknown" "Unknown Job" 1] (by decide)

end JobSync
